import Mathlib

/-!
Shallow embedding of `src/packages/hurlfmt/src/main.rs` — the hurlfmt
orchestration pipeline: per-input read → (optional curl adaptation) →
parse → check-or-transform dispatch → output routing, with the process
exit status.  External collaborators (reader, curl converter, parser,
linter, renderers, filesystem) are modelled as abstract function fields
of a `Collab` structure; the pipeline itself is translated line by line
from `main` and `write_output`.  Observable behaviour is captured as a
trace of `Event`s together with the process exit status.
-/

namespace Hurlfmt

/-- `hurlfmt::cli::options::InputFormat`. -/
inductive InputFormat
  | hurl
  | curl
  deriving DecidableEq

/-- `hurlfmt::cli::options::OutputFormat`. -/
inductive OutputFormat
  | hurl
  | json
  | html
  deriving DecidableEq

/-- The fields of the parsed CLI options that `main` consumes
(`opts.input_files`, `opts.input_format`, `opts.output_format`,
`opts.check`, `opts.in_place`, `opts.output_file`, `opts.color`,
`opts.standalone`). -/
structure Options where
  input_files : List String
  input_format : InputFormat
  output_format : OutputFormat
  check : Bool
  in_place : Bool
  output_file : Option String
  color : Bool
  standalone : Bool

/-- Abstract external collaborators invoked by `main`:
`cli::read_to_string`, `curl::parse`, `parser::parse_hurl_file`,
`linter::check_hurl_file` (findings as their formatted messages),
`linter::lint_hurl_file`, `format::format_text`, `format::format_json`,
`hurl_core::format::format_html`, and `std::fs::File::create` for the
writability of a destination path.  `Doc` is the parsed hurl-file type. -/
structure Collab (Doc : Type) where
  read_to_string : String → Except String String
  curl_parse : String → Except String String
  parse_hurl_file : String → Except String Doc
  check_hurl_file : Doc → List String
  lint_hurl_file : Doc → Doc
  format_text : Doc → Bool → String
  format_json : Doc → String
  format_html : Doc → Bool → String
  create_file : String → Except String Unit

/-- Observable actions of one run: reads attempted, diagnostics and
warnings emitted (with the text they are rendered against), renderer
invocations, and writes (with the exact bytes written). -/
inductive Event
  | readInput (file : String)
  | errRead (file : String) (msg : String)
  | errCurl (msg : String)
  | errParsing (shown : String) (file : String) (err : String)
  | warnLint (content : String) (file : String) (lint : String)
  | renderText
  | renderJson
  | renderHtml
  | writeStdout (bytes : String)
  | writeFile (path : String) (bytes : String)
  | errWrite (path : String) (msg : String)
  deriving DecidableEq

/-- Whether the content ends with the line terminator `'\n'` — the
`content.ends_with('\n')` test of `write_output` (main.rs line 131),
expressed on the string's character list so that it computes. -/
def ends_with_newline (content : String) : Bool :=
  content.data.getLast? == some '\n'

/-- Trailing-newline normalization done at the top of `write_output`
(main.rs lines 131–135). -/
def normalize (content : String) : String :=
  if !(ends_with_newline content) then content ++ "\n" else content

/-- `write_output` (main.rs lines 130–158).  Returns the events emitted
and `some code` when it terminates the process (`File::create` failure,
exit 1); `none` when it returns normally. -/
def write_output {Doc : Type} (C : Collab Doc) (content : String)
    (filename : Option String) : List Event × Option Nat :=
  let bytes := normalize content
  match filename with
  | none => ([Event.writeStdout bytes], none)
  | some path =>
    match C.create_file path with
    | Except.error why => ([Event.errWrite path why], some 1)
    | Except.ok _ => ([Event.writeFile path bytes], none)

/-- Outcome of the read/adapt/parse phase of the loop body
(main.rs lines 54–72) for one input file.  `parseFailed` records both
the raw `content` and the (possibly curl-adapted) `input` string that
was handed to the parser, together with the parse error. -/
inductive StepOutcome (Doc : Type)
  | readFailed (msg : String)
  | curlFailed (msg : String)
  | parseFailed (content : String) (input : String) (err : String)
  | parsed (content : String) (doc : Doc)

/-- The read/adapt/parse phase of the loop body (main.rs lines 54–72). -/
def stepParse {Doc : Type} (opts : Options) (C : Collab Doc)
    (input_file : String) : StepOutcome Doc :=
  match C.read_to_string input_file with
  | Except.error e => StepOutcome.readFailed e
  | Except.ok content =>
    let adapted : Except String String :=
      match opts.input_format with
      | InputFormat.hurl => Except.ok content
      | InputFormat.curl => C.curl_parse content
    match adapted with
    | Except.error e => StepOutcome.curlFailed e
    | Except.ok input =>
      match C.parse_hurl_file input with
      | Except.error e => StepOutcome.parseFailed content input e
      | Except.ok hurl_file => StepOutcome.parsed content hurl_file

/-- Transform-mode rendering (main.rs lines 85–94): which renderer is
invoked and the string it produces.  `OutputFormat.hurl` first passes
the document through `lint_hurl_file`; json and html render the parsed
document directly. -/
def renderDoc {Doc : Type} (opts : Options) (C : Collab Doc)
    (hurl_file : Doc) : Event × String :=
  match opts.output_format with
  | OutputFormat.hurl =>
      (Event.renderText, C.format_text (C.lint_hurl_file hurl_file) opts.color)
  | OutputFormat.json => (Event.renderJson, C.format_json hurl_file)
  | OutputFormat.html => (Event.renderHtml, C.format_html hurl_file opts.standalone)

/-- Result of the per-input loop: either the process already exited
with a status code, or the loop finished with the accumulated output. -/
inductive RunResult
  | exited (code : Nat)
  | finished (output_all : String)
  deriving DecidableEq

/-- The per-input loop of `main` (main.rs lines 53–113), carrying the
accumulated `output_all` buffer.  Every `process::exit` in the source
becomes a `RunResult.exited`; the trace records what was emitted before
the exit. -/
def mainLoop {Doc : Type} (opts : Options) (C : Collab Doc) :
    List String → String → List Event × RunResult
  | [], output_all => ([], RunResult.finished output_all)
  | input_file :: rest, output_all =>
    match stepParse opts C input_file with
    | StepOutcome.readFailed e =>
        ([Event.readInput input_file, Event.errRead input_file e],
         RunResult.exited 2)
    | StepOutcome.curlFailed e =>
        ([Event.readInput input_file, Event.errCurl e], RunResult.exited 2)
    | StepOutcome.parseFailed content _input e =>
        ([Event.readInput input_file, Event.errParsing content input_file e],
         RunResult.exited 2)
    | StepOutcome.parsed content hurl_file =>
      if opts.check then
        let lints := C.check_hurl_file hurl_file
        (Event.readInput input_file ::
           lints.map (fun l => Event.warnLint content input_file l),
         RunResult.exited (if lints.isEmpty then 0 else 3))
      else
        let r := renderDoc opts C hurl_file
        if opts.in_place then
          let w := write_output C r.2 (some input_file)
          match w.2 with
          | some code =>
              (Event.readInput input_file :: r.1 :: w.1, RunResult.exited code)
          | none =>
              let next := mainLoop opts C rest output_all
              (Event.readInput input_file :: r.1 :: (w.1 ++ next.1), next.2)
        else
          let next := mainLoop opts C rest (output_all ++ r.2)
          (Event.readInput input_file :: r.1 :: next.1, next.2)

/-- `main` after successful option parsing (main.rs lines 50–117): run
the per-input loop starting from an empty `output_all`, then, unless
in-place mode is on, write the accumulated output to the configured
output file (stdout when none).  Falling off the end of `main` is exit
status 0. -/
def hurlfmtMain {Doc : Type} (opts : Options) (C : Collab Doc) :
    List Event × Nat :=
  let r := mainLoop opts C opts.input_files ""
  match r.2 with
  | RunResult.exited code => (r.1, code)
  | RunResult.finished output_all =>
    if opts.in_place then (r.1, 0)
    else
      let w := write_output C output_all opts.output_file
      match w.2 with
      | some code => (r.1 ++ w.1, code)
      | none => (r.1 ++ w.1, 0)

/-! ### Derived notions used to state the properties -/

/-- Input `f` processes without terminating the run in transform mode:
its read/adapt/parse phase succeeds, and, when in-place mode is on, its
own path is writable. -/
def stepOk {Doc : Type} (opts : Options) (C : Collab Doc) (f : String) : Bool :=
  match stepParse opts C f with
  | StepOutcome.parsed _ _ =>
      !opts.in_place ||
        (match C.create_file f with
         | Except.ok _ => true
         | Except.error _ => false)
  | _ => false

/-- The string rendered for input `f` in transform mode (empty when the
parse phase fails; only used under a `stepOk` hypothesis). -/
def renderedOf {Doc : Type} (opts : Options) (C : Collab Doc) (f : String) :
    String :=
  match stepParse opts C f with
  | StepOutcome.parsed _ d => (renderDoc opts C d).2
  | _ => ""

/-- The events the loop body emits for a successfully processed input
in transform mode: the read, the render, and — in in-place mode — the
write back to the input's own path. -/
def okEvents {Doc : Type} (opts : Options) (C : Collab Doc) (f : String) :
    List Event :=
  match stepParse opts C f with
  | StepOutcome.parsed _ d =>
      if opts.in_place then
        [Event.readInput f, (renderDoc opts C d).1,
         Event.writeFile f (normalize (renderDoc opts C d).2)]
      else
        [Event.readInput f, (renderDoc opts C d).1]
  | _ => [Event.readInput f]

/-- Whether an event is a write to some destination. -/
def isWrite : Event → Bool
  | Event.writeStdout _ => true
  | Event.writeFile _ _ => true
  | _ => false

/-- Whether an event is a renderer invocation. -/
def isRender : Event → Bool
  | Event.renderText => true
  | Event.renderJson => true
  | Event.renderHtml => true
  | _ => false

/-- Whether an event is a read of an input source. -/
def isRead : Event → Bool
  | Event.readInput _ => true
  | _ => false

/-! ### Basic lemmas about the loop -/

lemma renderDoc_fst_not_read {Doc : Type} (opts : Options) (C : Collab Doc)
    (d : Doc) : isRead (renderDoc opts C d).1 = false := by
  cases h : opts.output_format <;> simp [renderDoc, h, isRead]

lemma renderDoc_fst_not_write {Doc : Type} (opts : Options) (C : Collab Doc)
    (d : Doc) : isWrite (renderDoc opts C d).1 = false := by
  cases h : opts.output_format <;> simp [renderDoc, h, isWrite]

lemma mainLoop_cons_ok {Doc : Type} (opts : Options) (C : Collab Doc)
    (f : String) (rest : List String) (acc : String)
    (hck : opts.check = false) (hok : stepOk opts C f = true) :
    mainLoop opts C (f :: rest) acc =
      (okEvents opts C f ++
         (mainLoop opts C rest
           (if opts.in_place then acc else acc ++ renderedOf opts C f)).1,
       (mainLoop opts C rest
           (if opts.in_place then acc else acc ++ renderedOf opts C f)).2) := by
  unfold stepOk at hok
  cases hs : stepParse opts C f with
  | readFailed e => rw [hs] at hok; simp at hok
  | curlFailed e => rw [hs] at hok; simp at hok
  | parseFailed c i e => rw [hs] at hok; simp at hok
  | parsed content d =>
    rw [hs] at hok
    cases hip : opts.in_place with
    | false =>
      simp only [mainLoop, hs, hck, hip, okEvents, renderedOf]
      simp
    | true =>
      rw [hip] at hok
      simp only [Bool.not_true, Bool.false_or] at hok
      cases hcf : C.create_file f with
      | error m => rw [hcf] at hok; simp at hok
      | ok u =>
        simp only [mainLoop, hs, hck, hip, okEvents, renderedOf,
          write_output, hcf]
        simp

lemma mainLoop_all_ok {Doc : Type} (opts : Options) (C : Collab Doc)
    (hck : opts.check = false) (files : List String) :
    ∀ acc : String, (∀ g ∈ files, stepOk opts C g = true) →
      mainLoop opts C files acc =
        ((files.map (okEvents opts C)).flatten,
         RunResult.finished (files.foldl
           (fun a f => if opts.in_place then a else a ++ renderedOf opts C f)
           acc)) := by
  induction files with
  | nil => intro acc _; simp [mainLoop]
  | cons f rest ih =>
    intro acc h
    rw [mainLoop_cons_ok opts C f rest acc hck (h f (List.mem_cons_self f rest))]
    rw [ih _ (fun g hg => h g (List.mem_cons_of_mem f hg))]
    simp

lemma mainLoop_prefix {Doc : Type} (opts : Options) (C : Collab Doc)
    (hck : opts.check = false) (pre : List String) :
    ∀ (rest : List String) (acc : String),
      (∀ g ∈ pre, stepOk opts C g = true) →
      ∃ acc2,
        mainLoop opts C (pre ++ rest) acc =
          ((pre.map (okEvents opts C)).flatten ++ (mainLoop opts C rest acc2).1,
           (mainLoop opts C rest acc2).2) := by
  induction pre with
  | nil => intro rest acc _; exact ⟨acc, by simp⟩
  | cons f pre ih =>
    intro rest acc h
    obtain ⟨acc2, h2⟩ := ih rest
      (if opts.in_place then acc else acc ++ renderedOf opts C f)
      (fun g hg => h g (List.mem_cons_of_mem f hg))
    refine ⟨acc2, ?_⟩
    rw [List.cons_append,
      mainLoop_cons_ok opts C f (pre ++ rest) acc hck
        (h f (List.mem_cons_self f pre)),
      h2]
    simp

lemma okEvents_readInput {Doc : Type} (opts : Options) (C : Collab Doc)
    (f g : String) (h : Event.readInput g ∈ okEvents opts C f) : g = f := by
  unfold okEvents at h
  cases hs : stepParse opts C f with
  | parsed content d =>
    rw [hs] at h
    cases hip : opts.in_place with
    | false =>
      rw [hip] at h
      simp only [Bool.false_eq_true, if_false, List.mem_cons,
        List.not_mem_nil, or_false] at h
      rcases h with h | h
      · injection h
      · exfalso
        have hrd := renderDoc_fst_not_read opts C d
        rw [← h] at hrd
        simp [isRead] at hrd
    | true =>
      rw [hip] at h
      simp only [if_true, List.mem_cons, List.not_mem_nil, or_false] at h
      rcases h with h | h | h
      · injection h
      · exfalso
        have hrd := renderDoc_fst_not_read opts C d
        rw [← h] at hrd
        simp [isRead] at hrd
      · simp at h
  | readFailed e => rw [hs] at h; simp at h; exact h
  | curlFailed e => rw [hs] at h; simp at h; exact h
  | parseFailed c i e => rw [hs] at h; simp at h; exact h

lemma okEvents_no_write {Doc : Type} (opts : Options) (C : Collab Doc)
    (f : String) (hip : opts.in_place = false) :
    ∀ e ∈ okEvents opts C f, isWrite e = false := by
  intro e he
  unfold okEvents at he
  cases hs : stepParse opts C f with
  | parsed content d =>
    rw [hs, hip] at he
    simp only [Bool.false_eq_true, if_false, List.mem_cons,
      List.not_mem_nil, or_false] at he
    rcases he with rfl | rfl
    · rfl
    · exact renderDoc_fst_not_write opts C d
  | readFailed e2 => rw [hs] at he; simp at he; subst he; rfl
  | curlFailed e2 => rw [hs] at he; simp at he; subst he; rfl
  | parseFailed c i e2 => rw [hs] at he; simp at he; subst he; rfl

lemma okEvents_filter_write {Doc : Type} (opts : Options) (C : Collab Doc)
    (f : String) (hip : opts.in_place = true) (hok : stepOk opts C f = true) :
    (okEvents opts C f).filter isWrite =
      [Event.writeFile f (normalize (renderedOf opts C f))] := by
  unfold stepOk at hok
  cases hs : stepParse opts C f with
  | parsed content d =>
    unfold okEvents renderedOf
    rw [hs, hip]
    cases ho : opts.output_format <;> simp [renderDoc, ho, List.filter, isWrite]
  | readFailed e2 => rw [hs] at hok; simp at hok
  | curlFailed e2 => rw [hs] at hok; simp at hok
  | parseFailed c i e2 => rw [hs] at hok; simp at hok

lemma okEvents_no_stdout {Doc : Type} (opts : Options) (C : Collab Doc)
    (f s : String) (h : Event.writeStdout s ∈ okEvents opts C f) : False := by
  unfold okEvents at h
  cases hs : stepParse opts C f with
  | parsed content d =>
    rw [hs] at h
    have hrd := renderDoc_fst_not_write opts C d
    cases hip : opts.in_place with
    | false =>
      rw [hip] at h
      simp only [Bool.false_eq_true, if_false, List.mem_cons,
        List.not_mem_nil, or_false] at h
      rcases h with h | h
      · simp at h
      · rw [← h] at hrd; simp [isWrite] at hrd
    | true =>
      rw [hip] at h
      simp only [if_true, List.mem_cons, List.not_mem_nil, or_false] at h
      rcases h with h | h | h
      · simp at h
      · rw [← h] at hrd; simp [isWrite] at hrd
      · simp at h
  | readFailed e2 => rw [hs] at h; simp at h
  | curlFailed e2 => rw [hs] at h; simp at h
  | parseFailed c i e2 => rw [hs] at h; simp at h

lemma flatten_okEvents_readInput {Doc : Type} (opts : Options) (C : Collab Doc)
    (pre : List String) (g : String)
    (h : Event.readInput g ∈ (pre.map (okEvents opts C)).flatten) : g ∈ pre := by
  rw [List.mem_flatten] at h
  obtain ⟨l, hl, hg⟩ := h
  rw [List.mem_map] at hl
  obtain ⟨p, hp, rfl⟩ := hl
  exact (okEvents_readInput opts C p g hg) ▸ hp

/-- The run reaches the sub-list `rest`: either nothing precedes it, or
every preceding input processes cleanly in transform mode. -/
lemma mainLoop_reach {Doc : Type} (opts : Options) (C : Collab Doc)
    (pre rest : List String)
    (hpre : pre = [] ∨ (opts.check = false ∧ ∀ g ∈ pre, stepOk opts C g = true)) :
    ∃ acc2, mainLoop opts C (pre ++ rest) "" =
      ((pre.map (okEvents opts C)).flatten ++ (mainLoop opts C rest acc2).1,
       (mainLoop opts C rest acc2).2) := by
  rcases hpre with rfl | ⟨hck, hok⟩
  · exact ⟨"", by simp⟩
  · exact mainLoop_prefix opts C hck pre rest "" hok

lemma hurlfmtMain_exited {Doc : Type} (opts : Options) (C : Collab Doc)
    (ev : List Event) (code : Nat)
    (h : mainLoop opts C opts.input_files "" = (ev, RunResult.exited code)) :
    hurlfmtMain opts C = (ev, code) := by
  unfold hurlfmtMain
  rw [h]

lemma hurlfmtMain_finished {Doc : Type} (opts : Options) (C : Collab Doc)
    (ev : List Event) (out : String)
    (h : mainLoop opts C opts.input_files "" = (ev, RunResult.finished out))
    (hip : opts.in_place = false) :
    hurlfmtMain opts C =
      (ev ++ (write_output C out opts.output_file).1,
       match (write_output C out opts.output_file).2 with
       | some code => code
       | none => 0) := by
  unfold hurlfmtMain
  rw [h, hip]
  cases hw : (write_output C out opts.output_file).2 <;> simp [hw]

lemma hurlfmtMain_finished_inplace {Doc : Type} (opts : Options)
    (C : Collab Doc) (ev : List Event) (out : String)
    (h : mainLoop opts C opts.input_files "" = (ev, RunResult.finished out))
    (hip : opts.in_place = true) :
    hurlfmtMain opts C = (ev, 0) := by
  unfold hurlfmtMain
  rw [h, hip]
  rfl

/-- In check mode, processing the first input always terminates the
run: with a successful parse, the trace is the read plus one warning
per finding, and the exit status is 0 without findings and 3 with. -/
lemma mainLoop_check_parsed {Doc : Type} (opts : Options) (C : Collab Doc)
    (f : String) (rest : List String) (acc content : String) (d : Doc)
    (hck : opts.check = true)
    (hs : stepParse opts C f = StepOutcome.parsed content d) :
    mainLoop opts C (f :: rest) acc =
      (Event.readInput f ::
         (C.check_hurl_file d).map (fun l => Event.warnLint content f l),
       RunResult.exited (if (C.check_hurl_file d).isEmpty then 0 else 3)) := by
  simp [mainLoop, hs, hck]

/-- Whether the read/adapt/parse phase failed (unreadable source,
malformed curl input, or parse failure). -/
def stepFails {Doc : Type} : StepOutcome Doc → Bool
  | StepOutcome.parsed _ _ => false
  | _ => true

lemma string_empty_append (s : String) : "" ++ s = s := by
  cases s with
  | mk data => rfl

/-- A failing head input makes the loop exit with status 2 after the
read event and one error event (which is not a read). -/
lemma mainLoop_fail_head {Doc : Type} (opts : Options) (C : Collab Doc)
    (f : String) (rest : List String) (acc : String)
    (hf : stepFails (stepParse opts C f) = true) :
    ∃ e2, isRead e2 = false ∧
      mainLoop opts C (f :: rest) acc =
        ([Event.readInput f, e2], RunResult.exited 2) := by
  unfold stepFails at hf
  cases hs : stepParse opts C f with
  | readFailed m => exact ⟨Event.errRead f m, rfl, by simp [mainLoop, hs]⟩
  | curlFailed m => exact ⟨Event.errCurl m, rfl, by simp [mainLoop, hs]⟩
  | parseFailed c i e => exact ⟨Event.errParsing c f e, rfl, by simp [mainLoop, hs]⟩
  | parsed c d => rw [hs] at hf; simp at hf

lemma flatten_okEvents_no_write {Doc : Type} (opts : Options) (C : Collab Doc)
    (files : List String) (hip : opts.in_place = false) :
    ∀ e ∈ (files.map (okEvents opts C)).flatten, isWrite e = false := by
  intro e he
  rw [List.mem_flatten] at he
  obtain ⟨l, hl, hg⟩ := he
  obtain ⟨p, hp, rfl⟩ := List.mem_map.mp hl
  exact okEvents_no_write opts C p hip e hg

lemma flatten_okEvents_filter_write {Doc : Type} (opts : Options)
    (C : Collab Doc) (hip : opts.in_place = true) :
    ∀ files : List String, (∀ g ∈ files, stepOk opts C g = true) →
      ((files.map (okEvents opts C)).flatten).filter isWrite =
        files.map (fun g => Event.writeFile g (normalize (renderedOf opts C g))) := by
  intro files
  induction files with
  | nil => intro _; rfl
  | cons f rest ih =>
    intro h
    simp only [List.map_cons, List.flatten_cons, List.filter_append]
    rw [okEvents_filter_write opts C f hip (h f (List.mem_cons_self f rest)),
      ih (fun g hg => h g (List.mem_cons_of_mem f hg))]
    rfl

lemma flatten_okEvents_no_stdout {Doc : Type} (opts : Options) (C : Collab Doc)
    (files : List String) (s : String)
    (h : Event.writeStdout s ∈ (files.map (okEvents opts C)).flatten) : False := by
  rw [List.mem_flatten] at h
  obtain ⟨l, hl, hg⟩ := h
  obtain ⟨p, hp, rfl⟩ := List.mem_map.mp hl
  exact okEvents_no_stdout opts C p s hg

/-! ### Claim theorems -/

/-- **C3.** For every list of inputs, the first input that actually
suffers an unreadable source, a malformed curl input, or a parse
failure terminates the whole run with exit status 2, and no subsequent
input in the list is ever read or processed: if the run reaches input
`f` (every earlier input processed cleanly in transform mode, or `f`
is the first input) and `f`'s read/adapt/parse phase fails, then the
exit status is 2 and every read event in the whole trace concerns an
input at or before `f`. -/
theorem first_failure_exits_two {Doc : Type} (opts : Options) (C : Collab Doc)
    (pre post : List String) (f : String)
    (hfiles : opts.input_files = pre ++ f :: post)
    (hpre : pre = [] ∨ (opts.check = false ∧ ∀ g ∈ pre, stepOk opts C g = true))
    (hfail : stepFails (stepParse opts C f) = true) :
    (hurlfmtMain opts C).2 = 2 ∧
      ∀ g, Event.readInput g ∈ (hurlfmtMain opts C).1 → g ∈ pre ++ [f] := by
  obtain ⟨acc2, hloop⟩ := mainLoop_reach opts C pre (f :: post) hpre
  obtain ⟨e2, he2, htail⟩ := mainLoop_fail_head opts C f post acc2 hfail
  have hl : mainLoop opts C opts.input_files "" =
      ((pre.map (okEvents opts C)).flatten ++ [Event.readInput f, e2],
       RunResult.exited 2) := by
    rw [hfiles, hloop, htail]
  have hmain := hurlfmtMain_exited opts C _ _ hl
  rw [hmain]
  refine ⟨rfl, ?_⟩
  intro g hg
  simp only [List.mem_append, List.mem_cons, List.not_mem_nil, or_false,
    List.mem_singleton] at hg ⊢
  rcases hg with hg | hg | hg
  · exact Or.inl (flatten_okEvents_readInput opts C pre g hg)
  · injection hg with h1; exact Or.inr h1
  · exfalso; rw [← hg] at he2; simp [isRead] at he2

/-- **C1 (amended).** For every input whose text fails to parse (and
is reached by the run), the run terminates with exit status 2, and the
parse diagnostic is rendered against the pre-adaptation raw content in
every case — also when curl adaptation occurred.  When no adaptation
occurred the raw content and the text handed to the parser coincide,
so the original claim holds in that case. -/
theorem parse_failure_diag_raw {Doc : Type} (opts : Options) (C : Collab Doc)
    (pre post : List String) (f content inp err : String)
    (hfiles : opts.input_files = pre ++ f :: post)
    (hpre : pre = [] ∨ (opts.check = false ∧ ∀ g ∈ pre, stepOk opts C g = true))
    (hf : stepParse opts C f = StepOutcome.parseFailed content inp err) :
    (hurlfmtMain opts C).2 = 2 ∧
      (hurlfmtMain opts C).1 =
        (pre.map (okEvents opts C)).flatten ++
          [Event.readInput f, Event.errParsing content f err] ∧
      (opts.input_format = InputFormat.hurl → inp = content) := by
  obtain ⟨acc2, hloop⟩ := mainLoop_reach opts C pre (f :: post) hpre
  have htail : mainLoop opts C (f :: post) acc2 =
      ([Event.readInput f, Event.errParsing content f err],
       RunResult.exited 2) := by
    simp [mainLoop, hf]
  have hl : mainLoop opts C opts.input_files "" =
      ((pre.map (okEvents opts C)).flatten ++
        [Event.readInput f, Event.errParsing content f err],
       RunResult.exited 2) := by
    rw [hfiles, hloop, htail]
  have hmain := hurlfmtMain_exited opts C _ _ hl
  refine ⟨by rw [hmain], by rw [hmain], ?_⟩
  intro hfmt
  unfold stepParse at hf
  rw [hfmt] at hf
  cases hr : C.read_to_string f with
  | error e2 => rw [hr] at hf; cases hf
  | ok c =>
    rw [hr] at hf
    simp only at hf
    cases hp : C.parse_hurl_file c with
    | error e2 =>
      rw [hp] at hf
      injection hf with h1 h2 h3
      exact h2.symm.trans h1
    | ok d => rw [hp] at hf; cases hf

/-- **C2.** In check mode, processing of the first input that parses
successfully terminates the process: zero findings exit with status 0,
at least one finding exits with status 3 after one warning per finding
(each carrying the input's raw content and identifier), and no
subsequent input is ever read. -/
theorem check_first_input_decides {Doc : Type} (opts : Options) (C : Collab Doc)
    (f : String) (rest : List String) (content : String) (d : Doc)
    (hck : opts.check = true)
    (hfiles : opts.input_files = f :: rest)
    (hs : stepParse opts C f = StepOutcome.parsed content d) :
    hurlfmtMain opts C =
      (Event.readInput f ::
         (C.check_hurl_file d).map (fun l => Event.warnLint content f l),
       if (C.check_hurl_file d).isEmpty then 0 else 3) ∧
      ∀ g, Event.readInput g ∈ (hurlfmtMain opts C).1 → g = f := by
  have hl : mainLoop opts C opts.input_files "" =
      (Event.readInput f ::
         (C.check_hurl_file d).map (fun l => Event.warnLint content f l),
       RunResult.exited (if (C.check_hurl_file d).isEmpty then 0 else 3)) := by
    rw [hfiles]
    exact mainLoop_check_parsed opts C f rest "" content d hck hs
  have hmain := hurlfmtMain_exited opts C _ _ hl
  refine ⟨hmain, ?_⟩
  intro g hg
  rw [hmain] at hg
  simp only [List.mem_cons, List.mem_map, Event.readInput.injEq] at hg
  rcases hg with hg | ⟨l, _, hg⟩
  · exact hg
  · cases hg

/-- **C9.** In check mode, the renderer is never invoked: for every
configuration with the check flag set and every collaborator, the run's
trace contains no renderer-invocation event, regardless of the
configured output format. -/
theorem check_never_renders {Doc : Type} (opts : Options) (C : Collab Doc)
    (hck : opts.check = true) :
    (hurlfmtMain opts C).1.filter isRender = [] := by
  cases hfiles : opts.input_files with
  | nil =>
    have h0 : mainLoop opts C opts.input_files "" =
        ([], RunResult.finished "") := by
      rw [hfiles]; rfl
    cases hip : opts.in_place with
    | true => rw [hurlfmtMain_finished_inplace opts C [] "" h0 hip]; rfl
    | false =>
      rw [hurlfmtMain_finished opts C [] "" h0 hip]
      cases hout : opts.output_file with
      | none => simp [write_output, isRender]
      | some p =>
        cases hcf : C.create_file p with
        | error m => simp [write_output, hcf, isRender]
        | ok u => simp [write_output, hcf, isRender]
  | cons f rest =>
    cases hs : stepParse opts C f with
    | readFailed m =>
      have hl : mainLoop opts C opts.input_files "" =
          ([Event.readInput f, Event.errRead f m], RunResult.exited 2) := by
        rw [hfiles]; simp [mainLoop, hs]
      rw [hurlfmtMain_exited opts C _ _ hl]
      rfl
    | curlFailed m =>
      have hl : mainLoop opts C opts.input_files "" =
          ([Event.readInput f, Event.errCurl m], RunResult.exited 2) := by
        rw [hfiles]; simp [mainLoop, hs]
      rw [hurlfmtMain_exited opts C _ _ hl]
      rfl
    | parseFailed c i e =>
      have hl : mainLoop opts C opts.input_files "" =
          ([Event.readInput f, Event.errParsing c f e], RunResult.exited 2) := by
        rw [hfiles]; simp [mainLoop, hs]
      rw [hurlfmtMain_exited opts C _ _ hl]
      rfl
    | parsed content d =>
      have hl : mainLoop opts C opts.input_files "" =
          (Event.readInput f ::
             (C.check_hurl_file d).map (fun l => Event.warnLint content f l),
           RunResult.exited (if (C.check_hurl_file d).isEmpty then 0 else 3)) := by
        rw [hfiles]
        exact mainLoop_check_parsed opts C f rest "" content d hck hs
      rw [hurlfmtMain_exited opts C _ _ hl]
      rw [List.filter_eq_nil_iff]
      intro a ha
      rcases List.mem_cons.mp ha with rfl | ha
      · simp [isRender]
      · obtain ⟨l, _, rfl⟩ := List.mem_map.mp ha
        simp [isRender]

/-- **C4.** In transform mode, for a successfully parsed document:
output format Hurl first passes the document through `lint_hurl_file`
and renders the canonicalized document with `format_text`, while Json
and Html render the parsed document directly with no canonicalization
step — the trace and the written bytes show exactly which collaborator
calls were made. -/
theorem transform_render_dispatch {Doc : Type} (opts : Options)
    (C : Collab Doc) (f content : String) (d : Doc)
    (hck : opts.check = false) (hip : opts.in_place = false)
    (hfiles : opts.input_files = [f]) (hout : opts.output_file = none)
    (hs : stepParse opts C f = StepOutcome.parsed content d) :
    hurlfmtMain opts C =
      ([Event.readInput f, (renderDoc opts C d).1,
        Event.writeStdout (normalize
          (match opts.output_format with
           | OutputFormat.hurl => C.format_text (C.lint_hurl_file d) opts.color
           | OutputFormat.json => C.format_json d
           | OutputFormat.html => C.format_html d opts.standalone))], 0) := by
  have hl : mainLoop opts C opts.input_files "" =
      ([Event.readInput f, (renderDoc opts C d).1],
       RunResult.finished ("" ++ (renderDoc opts C d).2)) := by
    rw [hfiles]
    simp [mainLoop, hs, hck, hip]
  have hmain := hurlfmtMain_finished opts C _ _ hl hip
  rw [hmain, hout]
  cases ho : opts.output_format <;>
    simp [write_output, renderDoc, ho, string_empty_append]

/-- **C5.** In transform mode with the combined destination policy,
when every input processes successfully and the destination is
writable, the trace is the per-input events (none of which is a write)
followed by exactly one write, to the configured output file or to
stdout, whose content is the concatenation of the rendered outputs in
input order, normalized with a trailing newline; the exit status is 0. -/
theorem combined_single_final_write {Doc : Type} (opts : Options)
    (C : Collab Doc)
    (hck : opts.check = false) (hip : opts.in_place = false)
    (hok : ∀ g ∈ opts.input_files, stepOk opts C g = true)
    (hw : opts.output_file = none ∨
          ∃ p, opts.output_file = some p ∧ C.create_file p = Except.ok ()) :
    hurlfmtMain opts C =
      ((opts.input_files.map (okEvents opts C)).flatten ++
        [(match opts.output_file with
          | none => Event.writeStdout (normalize
              (opts.input_files.foldl (fun a g => a ++ renderedOf opts C g) ""))
          | some p => Event.writeFile p (normalize
              (opts.input_files.foldl (fun a g => a ++ renderedOf opts C g) "")))],
       0) ∧
      ∀ e ∈ (opts.input_files.map (okEvents opts C)).flatten,
        isWrite e = false := by
  have hloop := mainLoop_all_ok opts C hck opts.input_files "" hok
  simp only [hip, Bool.false_eq_true, if_false] at hloop
  have hmain := hurlfmtMain_finished opts C _ _ hloop hip
  refine ⟨?_, flatten_okEvents_no_write opts C opts.input_files hip⟩
  rw [hmain]
  rcases hw with hout | ⟨p, hout, hcf⟩
  · simp [hout, write_output]
  · simp [hout, write_output, hcf]

/-- **C6.** In transform mode with the in-place destination policy,
when every input processes successfully, the exit status is 0, the
writes in the trace are exactly one per input, in order, each targeting
the path of its own input, and no write to stdout ever occurs (the
accumulated output buffer is never written). -/
theorem inplace_writes_each {Doc : Type} (opts : Options) (C : Collab Doc)
    (hck : opts.check = false) (hip : opts.in_place = true)
    (hok : ∀ g ∈ opts.input_files, stepOk opts C g = true) :
    (hurlfmtMain opts C).2 = 0 ∧
      (hurlfmtMain opts C).1.filter isWrite =
        opts.input_files.map
          (fun g => Event.writeFile g (normalize (renderedOf opts C g))) ∧
      ∀ s, Event.writeStdout s ∉ (hurlfmtMain opts C).1 := by
  have hloop := mainLoop_all_ok opts C hck opts.input_files "" hok
  simp only [hip, if_true] at hloop
  have hmain := hurlfmtMain_finished_inplace opts C _ _ hloop hip
  rw [hmain]
  refine ⟨rfl, ?_, ?_⟩
  · exact flatten_okEvents_filter_write opts C hip opts.input_files hok
  · intro s hmem
    exact flatten_okEvents_no_stdout opts C opts.input_files s hmem

/-- **C7.** At every write, if the content does not end with a line
terminator exactly one `\n` is appended before writing, and if it
already ends with one the content is written unchanged — for both the
stdout destination and a writable file destination the written bytes
are exactly `normalize content`. -/
theorem write_trailing_newline {Doc : Type} (C : Collab Doc)
    (content : String) :
    (write_output C content none).1 =
        [Event.writeStdout (normalize content)] ∧
      (ends_with_newline content = true → normalize content = content) ∧
      (ends_with_newline content = false →
        normalize content = content ++ "\n") ∧
      ∀ path : String, C.create_file path = Except.ok () →
        write_output C content (some path) =
          ([Event.writeFile path (normalize content)], none) := by
  refine ⟨rfl, ?_, ?_, ?_⟩
  · intro h; simp [normalize, h]
  · intro h; simp [normalize, h]
  · intro path hcf; simp [write_output, hcf]

/-- **C8.** A write to a file destination that fails because the
destination cannot be created is reported with the path and the
underlying reason, and the process exits with status 1 — stated for
`write_output` on any content and path, and instantiated on the
pipeline for the combined write. -/
theorem write_error_reports_and_exits_one {Doc : Type} (opts : Options)
    (C : Collab Doc) (content path msg : String)
    (hcf : C.create_file path = Except.error msg)
    (hip : opts.in_place = false) (hout : opts.output_file = some path)
    (hemp : opts.input_files = []) :
    write_output C content (some path) = ([Event.errWrite path msg], some 1) ∧
      hurlfmtMain opts C = ([Event.errWrite path msg], 1) := by
  constructor
  · simp [write_output, hcf]
  · have h0 : mainLoop opts C opts.input_files "" =
        ([], RunResult.finished "") := by
      rw [hemp]; rfl
    rw [hurlfmtMain_finished opts C [] "" h0 hip]
    simp [hout, write_output, hcf]

/-- **C10.** For an empty input-file list with in-place mode disabled,
the loop body never runs and the program performs exactly one write of
a single line terminator (the empty accumulated output, normalized to
`"\n"`) to the configured output file or stdout, then exits with
status 0. -/
theorem empty_inputs_single_newline_write {Doc : Type} (opts : Options)
    (C : Collab Doc)
    (hemp : opts.input_files = []) (hip : opts.in_place = false)
    (hw : opts.output_file = none ∨
          ∃ p, opts.output_file = some p ∧ C.create_file p = Except.ok ()) :
    hurlfmtMain opts C =
      ([match opts.output_file with
        | none => Event.writeStdout "\n"
        | some p => Event.writeFile p "\n"], 0) := by
  have h0 : mainLoop opts C opts.input_files "" =
      ([], RunResult.finished "") := by
    rw [hemp]; rfl
  rw [hurlfmtMain_finished opts C [] "" h0 hip]
  have hnorm : normalize "" = "\n" := by decide
  rcases hw with hout | ⟨p, hout, hcf⟩
  · simp [hout, write_output, hnorm]
  · simp [hout, write_output, hcf, hnorm]

/-! ### Concrete runs: counterexample and witnesses -/

/-- Concrete collaborator over `Doc := String` for closed runs: a file
named "unreadable" cannot be read, the text "raw bad" fails to parse,
the document "raw lint" has one finding, and the path "readonly"
cannot be created. -/
def wCollab : Collab String where
  read_to_string f :=
    if f = "unreadable" then Except.error "denied"
    else Except.ok ("raw " ++ f)
  curl_parse s := Except.ok ("adapted " ++ s)
  parse_hurl_file s :=
    if s = "raw bad" then Except.error "expecting method" else Except.ok s
  check_hurl_file d := if d = "raw lint" then ["finding one"] else []
  lint_hurl_file d := "linted " ++ d
  format_text d _ := "text " ++ d
  format_json d := "json " ++ d
  format_html d _ := "html " ++ d
  create_file p :=
    if p = "readonly" then Except.error "EACCES" else Except.ok ()

/-- Check mode over two inputs whose first has one finding. -/
def wOptsC2 : Options where
  input_files := ["lint", "x"]
  input_format := InputFormat.hurl
  output_format := OutputFormat.html
  check := true
  in_place := false
  output_file := none
  color := false
  standalone := false

/-- Transform mode over three inputs whose second fails to parse. -/
def wOptsC3 : Options where
  input_files := ["ok", "bad", "z"]
  input_format := InputFormat.hurl
  output_format := OutputFormat.json
  check := false
  in_place := false
  output_file := none
  color := false
  standalone := false

/-- Transform mode over one clean input, json output to stdout. -/
def wOptsC4 : Options where
  input_files := ["doc"]
  input_format := InputFormat.hurl
  output_format := OutputFormat.json
  check := false
  in_place := false
  output_file := none
  color := false
  standalone := false

/-- Transform mode over two clean inputs, json output to stdout. -/
def wOptsC5 : Options where
  input_files := ["doc", "e"]
  input_format := InputFormat.hurl
  output_format := OutputFormat.json
  check := false
  in_place := false
  output_file := none
  color := false
  standalone := false

/-- Transform mode over two clean inputs rewritten in place. -/
def wOptsC6 : Options where
  input_files := ["d1", "d2"]
  input_format := InputFormat.hurl
  output_format := OutputFormat.hurl
  check := false
  in_place := true
  output_file := none
  color := false
  standalone := false

/-- No inputs, combined output routed to an uncreatable file. -/
def wOptsC8 : Options where
  input_files := []
  input_format := InputFormat.hurl
  output_format := OutputFormat.hurl
  check := false
  in_place := false
  output_file := some "readonly"
  color := false
  standalone := false

/-- Check mode over one clean-parsing input with a finding. -/
def wOptsC9 : Options where
  input_files := ["lint"]
  input_format := InputFormat.hurl
  output_format := OutputFormat.json
  check := true
  in_place := false
  output_file := none
  color := false
  standalone := false

/-- No inputs, combined output to stdout. -/
def wOptsC10 : Options where
  input_files := []
  input_format := InputFormat.hurl
  output_format := OutputFormat.hurl
  check := false
  in_place := false
  output_file := none
  color := false
  standalone := false

/-- Collaborator for the C1 counterexample: curl adaptation rewrites
the raw text and the adapted text then fails to parse. -/
def cexCollab : Collab Unit where
  read_to_string _ := Except.ok "curl http:site"
  curl_parse _ := Except.ok "GET http:site"
  parse_hurl_file _ := Except.error "expecting method"
  check_hurl_file _ := []
  lint_hurl_file d := d
  format_text _ _ := ""
  format_json _ := ""
  format_html _ _ := ""
  create_file _ := Except.ok ()

/-- Options for the C1 counterexample: curl input format. -/
def cexOpts : Options where
  input_files := ["a.txt"]
  input_format := InputFormat.curl
  output_format := OutputFormat.hurl
  check := false
  in_place := false
  output_file := none
  color := false
  standalone := false

/-- **C1, counterexample.** With curl input format, when adaptation
rewrites the raw text and the adapted text fails to parse, the
diagnostic event carries the pre-adaptation raw content
`"curl http:site"`, not the adapted text `"GET http:site"` that was
actually handed to the parser, refuting the claim that the diagnostic
is rendered against the adapted canonical text when adaptation
occurred (the exit-status-2 half does hold). -/
theorem parse_failure_diag_counterexample :
    stepParse cexOpts cexCollab "a.txt" =
      StepOutcome.parseFailed "curl http:site" "GET http:site"
        "expecting method" ∧
      hurlfmtMain cexOpts cexCollab =
        ([Event.readInput "a.txt",
          Event.errParsing "curl http:site" "a.txt" "expecting method"], 2) ∧
      Event.errParsing "GET http:site" "a.txt" "expecting method" ∉
        (hurlfmtMain cexOpts cexCollab).1 ∧
      ("curl http:site" : String) ≠ "GET http:site" := by
  refine ⟨rfl, rfl, by decide, by decide⟩

/-- Witness for the amended C1 theorem at a concrete run. -/
theorem parse_failure_diag_raw_witness :
    (hurlfmtMain wOptsC3 wCollab).2 = 2 ∧
      (hurlfmtMain wOptsC3 wCollab).1 =
        (["ok"].map (okEvents wOptsC3 wCollab)).flatten ++
          [Event.readInput "bad",
           Event.errParsing "raw bad" "bad" "expecting method"] := by
  have h := parse_failure_diag_raw wOptsC3 wCollab ["ok"] ["z"] "bad"
    "raw bad" "raw bad" "expecting method" rfl
    (Or.inr ⟨rfl, by decide⟩) rfl
  exact ⟨h.1, h.2.1⟩

/-- Witness for C2 at a concrete run with one finding. -/
theorem check_first_input_decides_witness :
    hurlfmtMain wOptsC2 wCollab =
      ([Event.readInput "lint",
        Event.warnLint "raw lint" "lint" "finding one"], 3) := by
  exact (check_first_input_decides wOptsC2 wCollab "lint" ["x"]
    "raw lint" "raw lint" rfl rfl rfl).1

/-- Witness for C3 at a concrete run whose second input fails. -/
theorem first_failure_exits_two_witness :
    (hurlfmtMain wOptsC3 wCollab).2 = 2 :=
  (first_failure_exits_two wOptsC3 wCollab ["ok"] ["z"] "bad" rfl
    (Or.inr ⟨rfl, by decide⟩) (by decide)).1

/-- Witness for C4 at a concrete json-output run. -/
theorem transform_render_dispatch_witness :
    hurlfmtMain wOptsC4 wCollab =
      ([Event.readInput "doc", Event.renderJson,
        Event.writeStdout "json raw doc\n"], 0) := by
  exact transform_render_dispatch wOptsC4 wCollab "doc" "raw doc"
    "raw doc" rfl rfl rfl rfl rfl

/-- Witness for C5 at a concrete two-input combined run. -/
theorem combined_single_final_write_witness :
    hurlfmtMain wOptsC5 wCollab =
      ([Event.readInput "doc", Event.renderJson, Event.readInput "e",
        Event.renderJson,
        Event.writeStdout "json raw docjson raw e\n"], 0) := by
  exact (combined_single_final_write wOptsC5 wCollab rfl rfl
    (by decide) (Or.inl rfl)).1

/-- Witness for C6 at a concrete two-input in-place run. -/
theorem inplace_writes_each_witness :
    (hurlfmtMain wOptsC6 wCollab).2 = 0 ∧
      (hurlfmtMain wOptsC6 wCollab).1.filter isWrite =
        [Event.writeFile "d1" "text linted raw d1\n",
         Event.writeFile "d2" "text linted raw d2\n"] := by
  have h := inplace_writes_each wOptsC6 wCollab rfl rfl (by decide)
  exact ⟨h.1, h.2.1⟩

/-- Witness for C7 on concrete contents with and without a trailing
newline, and on a concrete writable file destination. -/
theorem write_trailing_newline_witness :
    normalize "GET url" = "GET url\n" ∧
      normalize "GET url\n" = "GET url\n" ∧
      write_output wCollab "GET url" (some "out.hurl") =
        ([Event.writeFile "out.hurl" "GET url\n"], none) := by
  have h1 := write_trailing_newline wCollab "GET url"
  have h2 := write_trailing_newline wCollab "GET url\n"
  refine ⟨h1.2.2.1 (by decide), h2.2.1 (by decide), ?_⟩
  exact h1.2.2.2 "out.hurl" rfl

/-- Witness for C8 at a concrete uncreatable destination. -/
theorem write_error_exits_one_witness :
    hurlfmtMain wOptsC8 wCollab = ([Event.errWrite "readonly" "EACCES"], 1) :=
  (write_error_reports_and_exits_one wOptsC8 wCollab "x" "readonly" "EACCES"
    rfl rfl rfl rfl).2

/-- Witness for C9 at a concrete check-mode run. -/
theorem check_never_renders_witness :
    (hurlfmtMain wOptsC9 wCollab).1.filter isRender = [] :=
  check_never_renders wOptsC9 wCollab rfl

/-- Witness for C10 at a concrete empty-input run. -/
theorem empty_inputs_single_newline_write_witness :
    hurlfmtMain wOptsC10 wCollab = ([Event.writeStdout "\n"], 0) := by
  exact empty_inputs_single_newline_write wOptsC10 wCollab rfl rfl
    (Or.inl rfl)

end Hurlfmt
